import Mathlib

/-!
Verification of the DESCRIBE-TABLE-LINES scanner (`app/main.py`).

The repository's core is a pure text-scanning pass: a regular expression
`DESCRIBE\s+TABLE\s+(?P<table>\w+)\s+LINES\s+(?P<target>\w+)` (case-insensitive)
run with non-overlapping `finditer` semantics over each code unit's text,
producing one structured finding per match, plus a batch coordinator that
keeps only units with at least one finding.

Text buffers are embedded as `List Char`.  Because `\w` and `\s` are disjoint
character classes and every literal keyword consists of word characters, the
regex backtracking semantics collapse to deterministic maximal-munch token
reading, which is what `matchAt` implements.
-/

namespace DbRule164

/-- Python `\w` on the ASCII range: letters, digits, underscore. -/
def isWordChar (c : Char) : Bool :=
  c.isAlpha || c.isDigit || c == '_'

/-- Python `\s` on the ASCII range: space, tab, newline, carriage return,
vertical tab, form feed. -/
def isSpaceChar (c : Char) : Bool :=
  c == ' ' || c == '\t' || c == '\n' || c == '\x0d' || c == '\x0b' || c == '\x0c'

/-- Case-insensitive character comparison (re.IGNORECASE on ASCII). -/
def charCI (a b : Char) : Bool :=
  a.toUpper == b.toUpper

/-- Match a literal keyword case-insensitively at the head of the input,
returning the rest of the input on success. -/
def matchLit : List Char → List Char → Option (List Char)
  | [], cs => some cs
  | _ :: _, [] => none
  | p :: ps, c :: cs => if charCI p c then matchLit ps cs else none

/-- One regex match: start offset, end offset, and the two named captures
`table` and `target`. -/
structure RMatch where
  mstart : Nat
  mend : Nat
  table : List Char
  target : List Char
deriving DecidableEq, Repr

/-- Read `\s+`: at least one whitespace character, maximal munch.  Returns the
number of characters read and the rest. -/
def eatSpaces (cs : List Char) : Option (Nat × List Char) :=
  if (cs.takeWhile isSpaceChar).isEmpty then none
  else some ((cs.takeWhile isSpaceChar).length, cs.dropWhile isSpaceChar)

/-- Read `\w+`: at least one word character, maximal munch.  Returns the
captured identifier and the rest. -/
def eatWord (cs : List Char) : Option (List Char × List Char) :=
  if (cs.takeWhile isWordChar).isEmpty then none
  else some (cs.takeWhile isWordChar, cs.dropWhile isWordChar)

/-- Attempt the regex `DESCRIBE\s+TABLE\s+(\w+)\s+LINES\s+(\w+)` at the head
of `cs` (case-insensitive).  Returns the consumed length and the two captures.
Since `\w` and `\s` are disjoint and the keywords are word characters, the
regex admits no backtracking choices and maximal munch is exact. -/
def matchAt (cs : List Char) : Option (Nat × List Char × List Char) :=
  match matchLit "DESCRIBE".toList cs with
  | none => none
  | some r1 =>
  match eatSpaces r1 with
  | none => none
  | some (n1, r2) =>
  match matchLit "TABLE".toList r2 with
  | none => none
  | some r3 =>
  match eatSpaces r3 with
  | none => none
  | some (n2, r4) =>
  match eatWord r4 with
  | none => none
  | some (tb, r5) =>
  match eatSpaces r5 with
  | none => none
  | some (n3, r6) =>
  match matchLit "LINES".toList r6 with
  | none => none
  | some r7 =>
  match eatSpaces r7 with
  | none => none
  | some (n4, r8) =>
  match eatWord r8 with
  | none => none
  | some (tg, _) =>
    some (8 + n1 + 5 + n2 + tb.length + n3 + 5 + n4 + tg.length, tb, tg)

/-- Embedding of the `finditer` loop: try the regex at each position left to right; after a
match, resume at the match's end (non-overlapping semantics).  `fuel` bounds
the number of loop steps; each step advances the position by at least one. -/
def scanAux (src : List Char) : Nat → Nat → List RMatch
  | 0, _ => []
  | Nat.succ fuel, pos =>
    match matchAt (src.drop pos) with
    | some (len, tb, tg) =>
        ⟨pos, pos + len, tb, tg⟩ :: scanAux src fuel (pos + len)
    | none => scanAux src fuel (pos + 1)

/-- All non-overlapping matches of `DESCRIBE_TABLE_RE` in document order
(the embedding of `DESCRIBE_TABLE_RE.finditer(src)`). -/
def findAll (src : List Char) : List RMatch :=
  scanAux src (src.length + 1) 0

/-- Embeds `line_of_offset(text, off) = text.count("\n", 0, off) + 1`. -/
def line_of_offset (text : List Char) (off : Nat) : Nat :=
  (text.take off).count '\n' + 1

/-- Python `str.replace("\n", "\\n")`: every newline becomes the two
characters backslash, `n`. -/
def pyReplaceNL : List Char → List Char
  | [] => []
  | c :: cs => if c == '\n' then '\\' :: 'n' :: pyReplaceNL cs else c :: pyReplaceNL cs

/-- Embeds `snippet_at(text, start, end) = text[max(0, start-60) : min(len, end+60)]`
with newlines escaped.  Nat subtraction `s - 60` is exactly `max(0, s-60)`. -/
def snippet_at (text : List Char) (s e : Nat) : List Char :=
  pyReplaceNL ((text.drop (s - 60)).take (min text.length (e + 60) - (s - 60)))

/-- Python `str.strip()`: drop leading and trailing whitespace. -/
def pyStrip (cs : List Char) : List Char :=
  ((cs.dropWhile isSpaceChar).reverse.dropWhile isSpaceChar).reverse

/-- Embeds `make_generic_suggestion(table, target)`. -/
def make_generic_suggestion (table target : String) : String :=
  "Replace obsolete 'DESCRIBE TABLE " ++ table ++ " LINES " ++ target ++
    "' with modern expression 'DATA(" ++ target ++ ") = LINES( " ++ table ++
    " ).' This uses the S/4HANA-compatible LINES() function."

/-- The `Unit` pydantic model (`code` and the unused `describe_findings`
field may be absent, i.e. `None`). -/
structure CodeUnit where
  pgm_name : String
  inc_name : String
  type : String
  name : Option String
  start_line : Option Int
  end_line : Option Int
  code : Option (List Char)
deriving DecidableEq, Repr, Inhabited

/-- One finding dictionary as built inside `scan_unit`; `meta` is an ordered
key/value mapping. -/
structure Finding where
  pgm_name : String
  inc_name : String
  type : String
  name : Option String
  start_line : Option Int
  end_line : Option Int
  issue_type : String
  severity : String
  line : Nat
  message : String
  suggestion : String
  snippet : String
  meta : List (String × String)
deriving DecidableEq, Repr, Inhabited

/-- The dictionary returned by `scan_unit`: the unit's own fields
(`unit.model_dump()`) with `describe_findings` replaced by the new list. -/
structure ScanResult where
  pgm_name : String
  inc_name : String
  type : String
  name : Option String
  start_line : Option Int
  end_line : Option Int
  code : Option (List Char)
  describe_findings : List Finding
deriving DecidableEq, Repr, Inhabited

/-- The finding dictionary built in the body of `scan_unit`'s match loop. -/
def mkFinding (u : CodeUnit) (src : List Char) (m : RMatch) : Finding :=
  let table := m.table.asString
  let target := m.target.asString
  let stmt := (src.drop m.mstart).take (m.mend - m.mstart)
  { pgm_name := u.pgm_name
    inc_name := u.inc_name
    type := u.type
    name := u.name
    start_line := u.start_line
    end_line := u.end_line
    issue_type := "ObsoleteDescribeTableUsage"
    severity := "warning"
    line := line_of_offset src m.mstart
    message := "Obsolete 'DESCRIBE TABLE " ++ table ++ " LINES " ++ target ++
      "' found. Use LINES( " ++ table ++ " ) instead for S/4HANA compatibility."
    suggestion := make_generic_suggestion table target
    snippet := (snippet_at src m.mstart m.mend).asString
    meta := [("original_statement", (pyStrip stmt).asString),
             ("replacement_syntax", "DATA(" ++ target ++ ") = LINES( " ++ table ++ " )."),
             ("note", "Replaces DESCRIBE TABLE … LINES with functional expression.")] }

/-- Embeds `scan_unit`: run the regex over `unit.code or ""` and build one finding
per match, attached to a copy of the unit's fields. -/
def scan_unit (u : CodeUnit) : ScanResult :=
  let src := u.code.getD []
  { pgm_name := u.pgm_name
    inc_name := u.inc_name
    type := u.type
    name := u.name
    start_line := u.start_line
    end_line := u.end_line
    code := u.code
    describe_findings := (findAll src).map (mkFinding u src) }

/-- Embeds `scan_describe_table`: the `/remediate-array` endpoint body — scan each
unit in order and keep only results with a non-empty finding list. -/
def scan_describe_table : List CodeUnit → List ScanResult
  | [] => []
  | u :: us =>
    let res := scan_unit u
    if res.describe_findings.isEmpty then scan_describe_table us
    else res :: scan_describe_table us

/-! Helper lemmas about the matcher and the scanning loop. -/

/-- A successful regex match consumes at least one character. -/
theorem matchAt_len_pos {cs : List Char} {len : Nat} {tb tg : List Char}
    (h : matchAt cs = some (len, tb, tg)) : 1 ≤ len := by
  unfold matchAt at h
  repeat split at h <;> try exact Option.noConfusion h
  simp only [Option.some.injEq, Prod.mk.injEq] at h
  omega

/-- Nothing matches in the empty buffer. -/
theorem matchAt_nil : matchAt ([] : List Char) = none := rfl

/-- Every match emitted by the scanning loop is a genuine regex match at its
recorded start offset, starts at or after the loop position, and is
non-degenerate. -/
theorem scanAux_sound (src : List Char) :
    ∀ fuel pos : Nat, ∀ m ∈ scanAux src fuel pos,
      matchAt (src.drop m.mstart) = some (m.mend - m.mstart, m.table, m.target) ∧
      pos ≤ m.mstart ∧ m.mstart < m.mend := by
  intro fuel
  induction fuel with
  | zero => intro pos m hm; simp [scanAux] at hm
  | succ fuel ih =>
    intro pos m hm
    rcases heq : matchAt (src.drop pos) with _ | ⟨len, tb, tg⟩
    · simp only [scanAux, heq] at hm
      have h := ih (pos + 1) m hm
      exact ⟨h.1, by omega, h.2.2⟩
    · simp only [scanAux, heq, List.mem_cons] at hm
      rcases hm with rfl | hm
      · refine ⟨?_, le_refl _, ?_⟩
        · show matchAt (src.drop pos) = some (pos + len - pos, tb, tg)
          rw [heq, Nat.add_sub_cancel_left]
        · show pos < pos + len
          have := matchAt_len_pos heq
          omega
      · have h := ih (pos + len) m hm
        exact ⟨h.1, by omega, h.2.2⟩

/-- Matches emitted by the scanning loop are pairwise non-overlapping and in
ascending order of start offset. -/
theorem scanAux_pairwise (src : List Char) :
    ∀ fuel pos : Nat,
      List.Pairwise (fun a b : RMatch => a.mend ≤ b.mstart) (scanAux src fuel pos) := by
  intro fuel
  induction fuel with
  | zero => intro pos; simp [scanAux]
  | succ fuel ih =>
    intro pos
    rcases heq : matchAt (src.drop pos) with _ | ⟨len, tb, tg⟩
    · simpa only [scanAux, heq] using ih (pos + 1)
    · simp only [scanAux, heq]
      refine List.Pairwise.cons ?_ (ih (pos + len))
      intro b hb
      exact (scanAux_sound src fuel (pos + len) b hb).2.1

/-- Completeness of the scanning loop for the empty result: when the loop has
enough fuel to visit every position and returns no match, the regex matches at
no position at or beyond the loop position. -/
theorem scanAux_nil_complete (src : List Char) :
    ∀ fuel pos : Nat, scanAux src fuel pos = [] → src.length < fuel + pos →
      ∀ p, pos ≤ p → matchAt (src.drop p) = none := by
  intro fuel
  induction fuel with
  | zero =>
    intro pos _ hlen p hp
    have : src.length ≤ p := by omega
    rw [List.drop_eq_nil_of_le this]
    exact matchAt_nil
  | succ fuel ih =>
    intro pos hnil hlen p hp
    rcases heq : matchAt (src.drop pos) with _ | ⟨len, tb, tg⟩
    · have hnil' : scanAux src fuel (pos + 1) = [] := by
        simpa only [scanAux, heq] using hnil
      rcases Nat.eq_or_lt_of_le hp with h | h
      · rwa [← h]
      · exact ih (pos + 1) hnil' (by omega) p (by omega)
    · exfalso
      simp only [scanAux, heq] at hnil
      exact List.cons_ne_nil _ _ hnil

/-- The batch endpoint is the filter of the per-unit scan over the input list. -/
theorem batch_eq_filter (us : List CodeUnit) :
    scan_describe_table us =
      (us.map scan_unit).filter (fun r => !r.describe_findings.isEmpty) := by
  induction us with
  | nil => rfl
  | cons u us ih =>
    simp only [scan_describe_table, List.map_cons, List.filter_cons]
    cases h : (scan_unit u).describe_findings.isEmpty <;> simp [h, ih]

/-- Scanning the empty buffer yields no matches. -/
theorem findAll_nil : findAll [] = [] := rfl

/-- Counting newlines in a prefix of the buffer equals counting the positions
strictly before the offset that hold a newline. -/
theorem count_take_eq_countP_range (text : List Char) :
    ∀ off : Nat, off ≤ text.length →
      (text.take off).count '\n' =
        (List.range off).countP (fun i => text[i]? == some '\n') := by
  intro off
  induction off with
  | zero => simp
  | succ off ih =>
    intro h
    have hlt : off < text.length := h
    rw [List.take_succ, List.range_succ, List.count_append, List.countP_append,
      ih (Nat.le_of_lt hlt)]
    simp only [List.getElem?_eq_getElem hlt, Option.toList_some, List.count_cons,
      List.count_nil, List.countP_cons, List.countP_nil, List.getElem?_eq_getElem]
    by_cases hc : text[off] = '\n' <;> simp [hc]

/-- Specification-side escape map: each newline becomes the two characters
backslash then `n`; all other characters pass through. -/
def escapeNL (cs : List Char) : List Char :=
  cs.flatMap fun c => if c = '\n' then ['\\', 'n'] else [c]

/-- The replace loop implements the escape map. -/
theorem pyReplaceNL_eq_escapeNL (cs : List Char) : pyReplaceNL cs = escapeNL cs := by
  induction cs with
  | nil => rfl
  | cons c cs ih =>
    by_cases h : c = '\n' <;> simp [pyReplaceNL, escapeNL, h] <;>
      simpa [escapeNL] using ih

/-- The escaped text contains no newline character. -/
theorem pyReplaceNL_no_nl (cs : List Char) : '\n' ∉ pyReplaceNL cs := by
  induction cs with
  | nil => simp [pyReplaceNL]
  | cons c cs ih =>
    by_cases h : c = '\n' <;> simp [pyReplaceNL, h, ih]
    intro hc
    exact absurd hc.symm h

/-! Concrete units used as witnesses and scenario inputs. -/

/-- Scenario A unit: exactly one obsolete statement. -/
def exUnitA : CodeUnit :=
  { pgm_name := "ZPROG", inc_name := "ZINC", type := "routine", name := some "U1",
    start_line := some 10, end_line := some 20,
    code := some ("DESCRIBE TABLE LT_TAB LINES LV_LINES.".toList) }

/-- Scenario D unit: the obsolete statement spread over three lines. -/
def exUnitD : CodeUnit :=
  { pgm_name := "ZPROG", inc_name := "ZINC", type := "routine", name := some "U4",
    start_line := some 1, end_line := some 3,
    code := some ("DESCRIBE TABLE\n  LT_TAB\nLINES LV_N.".toList) }

/-- Unit whose `code` field is absent. -/
def exUnitNone : CodeUnit :=
  { pgm_name := "ZPROG", inc_name := "ZINC", type := "routine", name := some "U2",
    start_line := some 1, end_line := some 1, code := none }

/-- Unit embedding the keyword as the suffix of a longer word. -/
def exUnitU : CodeUnit :=
  { pgm_name := "ZPROG", inc_name := "ZINC", type := "routine", name := some "U3",
    start_line := some 1, end_line := some 1,
    code := some ("UNDESCRIBE TABLE T LINES N".toList) }

/-! The claims. -/

/-- C1: the DESCRIBE-TABLE-LINES rule produces one finding per non-overlapping
regex match: the scanner yields exactly as many findings as matches; every
reported match is a genuine occurrence of the construct at its recorded span;
the matches are pairwise non-overlapping and in ascending start-offset order;
and when no match is reported the construct occurs nowhere in the text. -/
theorem C1_rule_matches_and_scan (u : CodeUnit) :
    (scan_unit u).describe_findings.length = (findAll (u.code.getD [])).length ∧
    (∀ m ∈ findAll (u.code.getD []),
      matchAt ((u.code.getD []).drop m.mstart) =
        some (m.mend - m.mstart, m.table, m.target) ∧
      m.mstart < m.mend) ∧
    List.Pairwise (fun a b : RMatch => a.mend ≤ b.mstart) (findAll (u.code.getD [])) ∧
    (findAll (u.code.getD []) = [] →
      ∀ p, matchAt ((u.code.getD []).drop p) = none) := by
  refine ⟨by simp [scan_unit], ?_, scanAux_pairwise _ _ _, ?_⟩
  · intro m hm
    have h := scanAux_sound (u.code.getD []) _ _ m hm
    exact ⟨h.1, h.2.2⟩
  · intro hnil p
    exact scanAux_nil_complete _ _ _ hnil (by omega) p (Nat.zero_le p)

/-- Witness for C1 at a concrete unit. -/
theorem C1_rule_matches_and_scan_witness :
    (scan_unit exUnitA).describe_findings.length =
      (findAll (exUnitA.code.getD [])).length :=
  (C1_rule_matches_and_scan exUnitA).1

/-- C2: the batch coordinator returns exactly the scan results whose finding
list is non-empty, preserving the input order: it is the filter of the mapped
per-unit scan, hence a sublist of it, and every returned result has at least
one finding. -/
theorem C2_batch_keeps_nonempty (us : List CodeUnit) :
    scan_describe_table us =
      (us.map scan_unit).filter (fun r => !r.describe_findings.isEmpty) ∧
    (scan_describe_table us).Sublist (us.map scan_unit) ∧
    ∀ r ∈ scan_describe_table us, r.describe_findings ≠ [] := by
  refine ⟨batch_eq_filter us, ?_, ?_⟩
  · rw [batch_eq_filter]
    exact List.filter_sublist _
  · intro r hr
    rw [batch_eq_filter] at hr
    have hp := (List.mem_filter.mp hr).2
    simpa using hp

/-- Witness for C2 at a concrete batch. -/
theorem C2_batch_keeps_nonempty_witness :
    scan_describe_table [exUnitA, exUnitNone] =
      (([exUnitA, exUnitNone]).map scan_unit).filter
        (fun r => !r.describe_findings.isEmpty) :=
  (C2_batch_keeps_nonempty [exUnitA, exUnitNone]).1

/-- C3: Scenario A — the unit text `DESCRIBE TABLE LT_TAB LINES LV_LINES.`
produces exactly one finding, whose message is the template instantiated with
table LT_TAB and target LV_LINES, and whose meta replacement statement is
`DATA(LV_LINES) = LINES( LT_TAB ).`. -/
theorem C3_scenario_a :
    (scan_unit exUnitA).describe_findings.map
        (fun f => (f.message, f.meta.lookup "replacement_syntax")) =
      [("Obsolete 'DESCRIBE TABLE LT_TAB LINES LV_LINES' found. Use LINES( LT_TAB ) instead for S/4HANA compatibility.",
        some "DATA(LV_LINES) = LINES( LT_TAB ).")] := by
  rfl

/-- C4: the offset mapper returns one plus the number of newline characters at
positions strictly before the offset; at offset zero it returns one; and in
the multi-line Scenario D the finding's line is that of the DESCRIBE keyword
(line 1), not that of LINES. -/
theorem C4_line_of_offset_spec (text : List Char) (off : Nat)
    (h : off ≤ text.length) :
    line_of_offset text off =
      1 + (List.range off).countP (fun i => text[i]? == some '\n') ∧
    line_of_offset text 0 = 1 ∧
    (scan_unit exUnitD).describe_findings.map Finding.line = [1] := by
  refine ⟨?_, rfl, by rfl⟩
  rw [line_of_offset, count_take_eq_countP_range text off h, Nat.add_comm]

/-- Witness for C4 at a concrete buffer and offset. -/
theorem C4_line_of_offset_spec_witness :
    4 ≤ ("ab\ncd".toList).length ∧
    (line_of_offset ("ab\ncd".toList) 4 =
        1 + (List.range 4).countP (fun i => ("ab\ncd".toList)[i]? == some '\n') ∧
      line_of_offset ("ab\ncd".toList) 0 = 1 ∧
      (scan_unit exUnitD).describe_findings.map Finding.line = [1]) :=
  ⟨by decide, C4_line_of_offset_spec ("ab\ncd".toList) 4 (by decide)⟩

/-- C5: the snippet extractor returns the substring from 60 characters before
the match start through 60 characters after the match end, clamped to the
buffer bounds, with every newline replaced by the two-character escape
backslash-n, so the snippet contains no line break. -/
theorem C5_snippet_window (text : List Char) (s e : Nat) :
    snippet_at text s e =
      escapeNL ((text.drop ((max 0 ((s : Int) - 60)).toNat)).take
        (min text.length (e + 60) - (max 0 ((s : Int) - 60)).toNat)) ∧
    '\n' ∉ snippet_at text s e := by
  have hmax : (max 0 ((s : Int) - 60)).toNat = s - 60 := by omega
  constructor
  · rw [snippet_at, pyReplaceNL_eq_escapeNL, hmax]
  · exact pyReplaceNL_no_nl _

/-- Witness for C5 at a concrete buffer and span. -/
theorem C5_snippet_window_witness :
    snippet_at ("a\nb".toList) 0 3 =
      escapeNL ((("a\nb".toList).drop ((max 0 ((0 : Int) - 60)).toNat)).take
        (min ("a\nb".toList).length (3 + 60) - (max 0 ((0 : Int) - 60)).toNat)) ∧
    '\n' ∉ snippet_at ("a\nb".toList) 0 3 :=
  C5_snippet_window ("a\nb".toList) 0 3

/-- C6: a missing or empty text field is treated as the empty string: it
produces zero findings and the unit is dropped from the batch output wherever
it appears, with the rest of the batch unaffected. -/
theorem C6_missing_text (u : CodeUnit) (h : u.code = none ∨ u.code = some []) :
    (scan_unit u).describe_findings = [] ∧
    ∀ us₁ us₂ : List CodeUnit,
      scan_describe_table (us₁ ++ u :: us₂) = scan_describe_table (us₁ ++ us₂) := by
  have hsrc : u.code.getD [] = [] := by rcases h with h | h <;> simp [h]
  have hfind : (scan_unit u).describe_findings = [] := by
    simp [scan_unit, hsrc, findAll_nil]
  refine ⟨hfind, ?_⟩
  intro us₁ us₂
  induction us₁ with
  | nil => simp [scan_describe_table, hfind]
  | cons v us₁ ih =>
    simp only [List.cons_append, scan_describe_table, List.append_eq]
    rw [ih]

/-- Witness for C6 at a unit with an absent text field. -/
theorem C6_missing_text_witness :
    (exUnitNone.code = none ∨ exUnitNone.code = some []) ∧
    (scan_unit exUnitNone).describe_findings = [] :=
  ⟨Or.inl rfl, (C6_missing_text exUnitNone (Or.inl rfl)).1⟩

/-- C7: the scanner does not mutate its input: the returned result carries
every field of the unit unchanged, and each finding inherits the unit's
identity fields verbatim. -/
theorem C7_unit_fields_preserved (u : CodeUnit) :
    (scan_unit u).pgm_name = u.pgm_name ∧ (scan_unit u).inc_name = u.inc_name ∧
    (scan_unit u).type = u.type ∧ (scan_unit u).name = u.name ∧
    (scan_unit u).start_line = u.start_line ∧ (scan_unit u).end_line = u.end_line ∧
    (scan_unit u).code = u.code ∧
    ∀ f ∈ (scan_unit u).describe_findings,
      f.pgm_name = u.pgm_name ∧ f.inc_name = u.inc_name ∧ f.type = u.type ∧
      f.name = u.name ∧ f.start_line = u.start_line ∧ f.end_line = u.end_line := by
  refine ⟨rfl, rfl, rfl, rfl, rfl, rfl, rfl, ?_⟩
  intro f hf
  simp only [scan_unit, List.mem_map] at hf
  obtain ⟨m, _, rfl⟩ := hf
  exact ⟨rfl, rfl, rfl, rfl, rfl, rfl⟩

/-- Witness for C7 at a concrete unit. -/
theorem C7_unit_fields_preserved_witness :
    (scan_unit exUnitA).pgm_name = exUnitA.pgm_name :=
  (C7_unit_fields_preserved exUnitA).1

/-- C8: scanning is deterministic and repeatable — the same unit or batch
always produces the same output — and the batch scan distributes over
concatenation of batches, so no hidden state flows across units or runs. -/
theorem C8_deterministic_stateless (u : CodeUnit) (us vs : List CodeUnit) :
    scan_unit u = scan_unit u ∧
    scan_describe_table us = scan_describe_table us ∧
    scan_describe_table (us ++ vs) =
      scan_describe_table us ++ scan_describe_table vs := by
  refine ⟨rfl, rfl, ?_⟩
  rw [batch_eq_filter, batch_eq_filter, batch_eq_filter, List.map_append,
    List.filter_append]

/-- Witness for C8 at concrete batches. -/
theorem C8_deterministic_stateless_witness :
    scan_unit exUnitA = scan_unit exUnitA ∧
    scan_describe_table [exUnitA] = scan_describe_table [exUnitA] ∧
    scan_describe_table ([exUnitA] ++ [exUnitNone]) =
      scan_describe_table [exUnitA] ++ scan_describe_table [exUnitNone] :=
  C8_deterministic_stateless exUnitA [exUnitA] [exUnitNone]

/-- C9: the DESCRIBE keyword is not anchored at a token boundary: in
`UNDESCRIBE TABLE T LINES N` the regex matches starting at offset 2, inside
the word `UNDESCRIBE`, and the scanner still produces one finding. -/
theorem C9_no_word_boundary :
    findAll ("UNDESCRIBE TABLE T LINES N".toList) =
      [{ mstart := 2, mend := 26, table := "T".toList, target := "N".toList }] ∧
    (scan_unit exUnitU).describe_findings.map
        (fun f => f.meta.lookup "original_statement") =
      [some "DESCRIBE TABLE T LINES N"] :=
  ⟨rfl, rfl⟩

/-- C10: every finding carries issue type ObsoleteDescribeTableUsage and
severity warning, and a meta map whose keys are exactly original statement,
replacement, note — the original statement being the matched text stripped of
surrounding whitespace and the note a fixed string. -/
theorem C10_finding_invariants (u : CodeUnit) :
    ∀ f ∈ (scan_unit u).describe_findings,
      f.issue_type = "ObsoleteDescribeTableUsage" ∧
      f.severity = "warning" ∧
      f.meta.map Prod.fst = ["original_statement", "replacement_syntax", "note"] ∧
      (∃ m ∈ findAll (u.code.getD []),
        f.meta.lookup "original_statement" =
          some ((pyStrip (((u.code.getD []).drop m.mstart).take
            (m.mend - m.mstart))).asString)) ∧
      f.meta.lookup "note" =
        some "Replaces DESCRIBE TABLE … LINES with functional expression." := by
  intro f hf
  simp only [scan_unit, List.mem_map] at hf
  obtain ⟨m, hm, rfl⟩ := hf
  exact ⟨rfl, rfl, rfl, ⟨m, hm, rfl⟩, rfl⟩

/-- Witness for C10 at the finding produced by a concrete unit. -/
theorem C10_finding_invariants_witness :
    (scan_unit exUnitA).describe_findings ≠ [] ∧
    ((scan_unit exUnitA).describe_findings.head!).issue_type =
      "ObsoleteDescribeTableUsage" := by
  have hne : (scan_unit exUnitA).describe_findings ≠ [] := by decide
  exact ⟨hne,
    (C10_finding_invariants exUnitA _ (List.head!_mem_self hne)).1⟩

end DbRule164
